import Mathlib

/-!
Verification development for the write-path core of the openslides datastore
service.  The Python sources are embedded shallowly:

* `datastore/writer/postgresql_backend/event_translator.py`
  (`EventTranslatorService.translate` and its helpers);
* `datastore/shared/postgresql_backend/pg_connection_handler.py`
  (`retry_on_db_failure`, `ConnectionContext.__exit__`,
  `PgConnectionHandlerService.get_connection` / `put_connection`);
* the observable call protocol of `WriterService.write` as pinned by
  `tests/writer/unit/core/test_writer_service.py`.

Python dictionaries are embedded as insertion-ordered association lists,
Python exceptions as `Except` error values, and the stateful connection
handler as explicit state passing for a single calling thread.
-/

set_option autoImplicit false

namespace Datastore

/-- JSON values, the field values carried by models and request events.
`null` plays the role of the Python `None` sentinel. -/
inductive JSON where
  | null
  | bool (b : Bool)
  | num (n : Int)
  | str (s : String)
  | arr (elems : List JSON)
  | obj (entries : List (String × JSON))

/-- `v is None` in Python. -/
def JSON.isNull : JSON → Bool
  | .null => true
  | _ => false

/-- `v is True` in Python: identical to the `True` singleton. -/
def JSON.isPyTrue : JSON → Bool
  | .bool true => true
  | _ => false

/-- `v is False` in Python: identical to the `False` singleton. -/
def JSON.isPyFalse : JSON → Bool
  | .bool false => true
  | _ => false

/-- Fully-qualified id of a model, of the shape `collection/id`. -/
abbrev Fqid := String

/-- A model: a Python dict from field name to JSON value, in insertion
order, embedded as an association list. -/
abbrev Model := List (String × JSON)

/-- The mapping from FQID to model handed to `translate`. -/
abbrev Models := List (Fqid × Model)

/-- Lookup in an insertion-ordered association list; `none` plays the role
of a missing dictionary key. -/
def assocLookup {α : Type} (m : List (String × α)) (k : String) : Option α :=
  match m with
  | [] => none
  | (k1, v) :: rest => if k1 = k then some v else assocLookup rest k

/-- The reserved deletion-marker field of every model
(`META_DELETED` from `datastore.shared.util`). -/
def META_DELETED : String := "meta_deleted"

/-- Request events accepted by the writer
(`RequestCreateEvent`, `RequestUpdateEvent`, `RequestDeleteEvent`,
`RequestRestoreEvent` from `datastore.writer.core`).  For an update,
`list_fields_add` and `list_fields_remove` are the `add` and `remove`
entries of `list_fields` (`.get` with an empty-dict default is absorbed
into the representation). -/
inductive BaseRequestEvent where
  | create (fqid : Fqid) (fields : List (String × JSON))
  | update (fqid : Fqid) (fields : List (String × JSON))
      (list_fields_add : List (String × List JSON))
      (list_fields_remove : List (String × List JSON))
  | delete (fqid : Fqid)
  | restore (fqid : Fqid)

/-- Db events produced by the translator (`db_events.py`). -/
inductive BaseDbEvent where
  | dbCreate (fqid : Fqid) (fields : List (String × JSON))
  | dbUpdate (fqid : Fqid) (fields : List (String × JSON))
  | dbDeleteFields (fqid : Fqid) (fields : List String)
  | dbListUpdate (fqid : Fqid) (add : List (String × List JSON))
      (remove : List (String × List JSON)) (model : Model)
  | dbDelete (fqid : Fqid) (fields : List String)
  | dbRestore (fqid : Fqid) (fields : List String)

/-- Exceptions the translator can raise.  `keyError` is the Python
`KeyError` escaping from a raw `dict[...]` subscript; the other three are
the domain validation errors from `datastore.shared.util`. -/
inductive TranslateError where
  | modelExists (fqid : Fqid)
  | modelDoesNotExist (fqid : Fqid)
  | modelNotDeleted (fqid : Fqid)
  | keyError (key : String)
deriving DecidableEq

/-- `EventTranslatorService.assert_model_does_not_exist`:
`if fqid in models: raise ModelExists(fqid)`. -/
def assert_model_does_not_exist (fqid : Fqid) (models : Models) :
    Except TranslateError Unit :=
  match assocLookup models fqid with
  | some _ => .error (.modelExists fqid)
  | none => .ok ()

/-- `EventTranslatorService.assert_model_exists`:
`if fqid not in models or models[fqid][META_DELETED] is True: raise
ModelDoesNotExist(fqid)`.  The inner subscript raises `KeyError` when the
deletion marker is missing. -/
def assert_model_exists (fqid : Fqid) (models : Models) :
    Except TranslateError Unit :=
  match assocLookup models fqid with
  | none => .error (.modelDoesNotExist fqid)
  | some m =>
    match assocLookup m META_DELETED with
    | none => .error (.keyError META_DELETED)
    | some v =>
      if v.isPyTrue then .error (.modelDoesNotExist fqid) else .ok ()

/-- `EventTranslatorService.assert_model_is_deleted`:
`if fqid not in models or models[fqid][META_DELETED] is False: raise
ModelNotDeleted(fqid)`. -/
def assert_model_is_deleted (fqid : Fqid) (models : Models) :
    Except TranslateError Unit :=
  match assocLookup models fqid with
  | none => .error (.modelNotDeleted fqid)
  | some m =>
    match assocLookup m META_DELETED with
    | none => .error (.keyError META_DELETED)
    | some v =>
      if v.isPyFalse then .error (.modelNotDeleted fqid) else .ok ()

/-- `EventTranslatorService.create_update_events`: non-null fields become
one `DbUpdateEvent` (only if non-empty), null fields one
`DbDeleteFieldsEvent` (only if non-empty), and a non-empty `add` or
`remove` one `DbListUpdateEvent` carrying `models[fqid]` (a raw subscript,
hence `keyError` when the FQID is absent). -/
def create_update_events (fqid : Fqid) (fields : List (String × JSON))
    (addL removeL : List (String × List JSON)) (models : Models) :
    Except TranslateError (List BaseDbEvent) :=
  let updated_fields := fields.filter (fun fv => !fv.2.isNull)
  let events1 : List BaseDbEvent :=
    if updated_fields.isEmpty then [] else [.dbUpdate fqid updated_fields]
  let deleted_fields := (fields.filter (fun fv => fv.2.isNull)).map Prod.fst
  let events2 : List BaseDbEvent :=
    if deleted_fields.isEmpty then [] else [.dbDeleteFields fqid deleted_fields]
  if addL.isEmpty && removeL.isEmpty then
    .ok (events1 ++ events2)
  else
    match assocLookup models fqid with
    | none => .error (.keyError fqid)
    | some m => .ok (events1 ++ events2 ++ [.dbListUpdate fqid addL removeL m])

/-- `EventTranslatorService.translate`: dispatch on the request-event
variant, check the existence/deletion precondition, and build the db
events.  The delete and restore branches read `models[fqid].keys()` with
a raw subscript (dead `keyError` arm kept for faithfulness: the preceding
assertion guarantees presence). -/
def translate (ev : BaseRequestEvent) (models : Models) :
    Except TranslateError (List BaseDbEvent) :=
  match ev with
  | .create fqid fields => do
    assert_model_does_not_exist fqid models
    return [.dbCreate fqid fields]
  | .update fqid fields addL removeL => do
    assert_model_exists fqid models
    create_update_events fqid fields addL removeL models
  | .delete fqid => do
    assert_model_exists fqid models
    match assocLookup models fqid with
    | none => .error (.keyError fqid)
    | some m => return [.dbDelete fqid (m.map Prod.fst)]
  | .restore fqid => do
    assert_model_is_deleted fqid models
    match assocLookup models fqid with
    | none => .error (.keyError fqid)
    | some m => return [.dbRestore fqid (m.map Prod.fst)]

/-- A models mapping is well formed when every model carries the reserved
deletion-marker field. -/
def wellFormedModels (models : Models) : Bool :=
  models.all (fun fm => (assocLookup fm.2 META_DELETED).isSome)

/-- The FQID is absent, or its deletion marker is the literal `true`:
the failure condition of update and delete. -/
def absentOrDeleted (models : Models) (fqid : Fqid) : Bool :=
  match assocLookup models fqid with
  | none => true
  | some m =>
    match assocLookup m META_DELETED with
    | some v => v.isPyTrue
    | none => false

/-- The FQID is absent, or its deletion marker is the literal `false`:
the failure condition of restore. -/
def absentOrNotDeleted (models : Models) (fqid : Fqid) : Bool :=
  match assocLookup models fqid with
  | none => true
  | some m =>
    match assocLookup m META_DELETED with
    | some v => v.isPyFalse
    | none => false

/-- Success test on an `Except` result. -/
def exceptOk {ε α : Type} : Except ε α → Bool
  | .ok _ => true
  | .error _ => false

/-- A `psycopg2.Error` instance as far as the handler inspects it:
its class (`OperationalError` or not, via `isinstance`), its class name,
`pgcode` and `pgerror`. -/
structure PsycopgError where
  typeName : String
  isOperational : Bool
  pgcode : Option String
  pgerror : String
deriving DecidableEq

/-- The domain `DatabaseError` raised by `raise_error`, wrapping the
underlying `psycopg2.Error` as `base_exception`. -/
structure DatabaseError where
  msg : String
  base_exception : PsycopgError
deriving DecidableEq

/-- Rendering of a Python `pgcode` value inside the log message
(`None` when absent). -/
def pgcodeStr : Option String → String
  | none => "None"
  | some c => c

/-- `PgConnectionHandlerService.raise_error`: wrap a `psycopg2.Error`
into a domain `DatabaseError` and raise it. -/
def raise_error (e : PsycopgError) : DatabaseError :=
  { msg := "Database connection error (" ++ e.typeName ++ ", code "
      ++ pgcodeStr e.pgcode ++ "): " ++ e.pgerror
    base_exception := e }

/-- The retry condition of `retry_on_db_failure`: the caught
`DatabaseError` wraps a `psycopg2.OperationalError` whose `pgcode` is
`None` — the only indication of a sudden connection break. -/
def retryableDbError (e : DatabaseError) : Bool :=
  e.base_exception.isOperational && e.base_exception.pgcode.isNone

/-- Outcome of one run of the wrapped function under `retry_on_db_failure`:
the surfaced result, the number of attempts made, and the sleep durations
(in ms) inserted between consecutive attempts. -/
structure RetryResult (α : Type) where
  result : Except DatabaseError α
  attempts : Nat
  sleeps : List Nat

/-- The loop of `retry_on_db_failure`, started at attempt index `idx`
with `tries = idx` failures recorded so far.  `outcomes i` is what the
wrapped function does on its `i`-th call.  A retryable failure on attempt
`idx` retries exactly when `tries + 1 < MAX_RETRIES`, after sleeping
`RETRY_TIMEOUT / 1000` seconds if `RETRY_TIMEOUT` is non-zero; every other
result is surfaced at once. -/
def retryGo {α : Type} (retryTimeout maxRetries : Nat)
    (outcomes : Nat → Except DatabaseError α) (idx : Nat) : RetryResult α :=
  match outcomes idx with
  | .ok v => ⟨.ok v, idx + 1, []⟩
  | .error e =>
    if h : retryableDbError e = true ∧ idx + 1 < maxRetries then
      let r := retryGo retryTimeout maxRetries outcomes (idx + 1)
      ⟨r.result, r.attempts,
        (if retryTimeout = 0 then [] else [retryTimeout]) ++ r.sleeps⟩
    else ⟨.error e, idx + 1, []⟩
termination_by maxRetries - idx
decreasing_by omega

/-- A full run of a function wrapped by `retry_on_db_failure`. -/
def retryRun {α : Type} (retryTimeout maxRetries : Nat)
    (outcomes : Nat → Except DatabaseError α) : RetryResult α :=
  retryGo retryTimeout maxRetries outcomes 0

/-- Invariant of the retry loop started at attempt `idx`: the loop makes
between one and `maxRetries - idx` further attempts, surfaces the last
attempt's outcome, retried only on retryable failures, and slept once
between consecutive attempts. -/
def retryInv {α : Type} (rt mr : Nat) (o : Nat → Except DatabaseError α)
    (idx : Nat) (r : RetryResult α) : Prop :=
  (idx + 1 ≤ r.attempts ∧ r.attempts ≤ max mr (idx + 1))
  ∧ r.result = o (r.attempts - 1)
  ∧ (∀ i, idx ≤ i → i + 1 < r.attempts →
      ∃ e, o i = .error e ∧ retryableDbError e = true)
  ∧ r.sleeps = (if rt = 0 then [] else List.replicate (r.attempts - 1 - idx) rt)

/-- A pooled psycopg2 connection as far as the handler inspects it. -/
structure PoolConn where
  connId : Nat
  closed : Bool
  autocommit : Bool
deriving DecidableEq

/-- The handler state visible to one calling thread: the thread-local
current connection (`_storage.connection`, `none` when unset) and the
free list of the `ThreadedConnectionPool`. -/
structure HandlerState where
  current : Option PoolConn
  available : List PoolConn
deriving DecidableEq

/-- Result of `PgConnectionHandlerService.get_connection` for the calling
thread.  `blocked` is the pool-exhausted path: the code clears
`sync_event` and loops, waiting for another thread's `put_connection`;
sequentially for one thread this is a wait, so we stop there. -/
inductive GetConnResult where
  | ok (conn : PoolConn) (state : HandlerState)
  | badCoding
  | blocked (state : HandlerState)
deriving DecidableEq

/-- `PgConnectionHandlerService.get_connection`, single-thread view.
If the thread already holds a connection: a closed one is discarded via
`_put_connection(old_conn, True)` (dropped from the pool, slot cleared),
an open one raises `BadCodingError`.  Then `getconn` pops the pool free
list (raising `PoolError` → wait when empty), `autocommit` is set to
`False`, and the connection is recorded as the thread's current one. -/
def get_connection (s : HandlerState) : GetConnResult :=
  match s.current with
  | some old =>
    if old.closed then
      match s.available with
      | [] => .blocked { current := none, available := s.available }
      | c :: rest =>
        .ok { c with autocommit := false }
          { current := some { c with autocommit := false }, available := rest }
    else .badCoding
  | none =>
    match s.available with
    | [] => .blocked s
    | c :: rest =>
      .ok { c with autocommit := false }
        { current := some { c with autocommit := false }, available := rest }

/-- `PgConnectionHandlerService.put_connection` (via `_put_connection`):
raises `BadCodingError` when the returned connection is not the thread's
current one; otherwise `putconn(connection, close=has_error)` — the
connection is dropped when `has_error`, pushed back to the free list
otherwise — and the current-connection slot is cleared. -/
def put_connection (s : HandlerState) (conn : PoolConn) (has_error : Bool) :
    Except Unit HandlerState :=
  if s.current = some conn then
    .ok { current := none,
          available := if has_error then s.available else s.available ++ [conn] }
  else .error ()

/-- A connection id that is gone from the handler state: neither held as
the current connection nor in the pool free list. -/
def connAbsent (cid : Nat) (s : HandlerState) : Bool :=
  (match s.current with
   | some c => c.connId ≠ cid
   | none => true)
  && s.available.all (fun c => c.connId ≠ cid)

/-- A Python exception reaching `ConnectionContext.__exit__`:
either a `psycopg2.Error` or anything else. -/
inductive PyExc where
  | pgError (e : PsycopgError)
  | otherError
deriving DecidableEq

/-- Observable actions of `ConnectionContext.__exit__`. -/
inductive ExitAction where
  | connExit (commit : Bool)
  | putConn (hasError : Bool)
  | raiseDbError (d : DatabaseError)
deriving DecidableEq

/-- Action test: is this the `put_connection` call? -/
def isPutConn : ExitAction → Bool
  | .putConn _ => true
  | _ => false

/-- Exception test: is this a `psycopg2.Error`? -/
def isPgExc : Option PyExc → Bool
  | some (.pgError _) => true
  | _ => false

/-- `ConnectionContext.__exit__` as its trace of actions: compute
`has_pg_error`; call `connection.__exit__` (commit on clean exit,
rollback under an exception) unless the connection is already closed;
always `put_connection(connection, has_pg_error)`; finally re-raise a
`psycopg2.Error` translated through `raise_error`. -/
def contextExit (connClosed : Bool) (exc : Option PyExc) : List ExitAction :=
  let has_pg_error := isPgExc exc
  (if connClosed then [] else [ExitAction.connExit exc.isNone])
    ++ [ExitAction.putConn has_pg_error]
    ++ (match exc with
        | some (.pgError e) => [ExitAction.raiseDbError (raise_error e)]
        | _ => [])

/-- A `WriteRequest` as constructed in the writer unit tests:
`WriteRequest(events, information, user_id, locked_fields)`. -/
structure WriteRequest where
  events : List BaseRequestEvent
  information : List String
  user_id : Int
  locked_fields : List (String × Int)

/-- Collaborator calls observable from `WriterService.write`, as asserted
by `test_writer_distribution`. -/
inductive WriterCall where
  | getContext
  | assertLockedFields (wr : WriteRequest)
  | getCurrentMigrationIndex
  | insertEvents (events : List BaseRequestEvent) (migrationIndex : Int)
      (information : List String) (userId : Int)
  | handleEvents

/-- Call test: is this the `get_current_migration_index` call? -/
def isGcmiCall : WriterCall → Bool
  | .getCurrentMigrationIndex => true
  | _ => false

/-- Migration-index argument of an `insert_events` call, if any. -/
def insertEventsMIArg : WriterCall → Option Int
  | .insertEvents _ mi _ _ => some mi
  | _ => none

/-- The migration-index arguments of all `insert_events` calls in a
trace. -/
def writerInsertMIArgs (t : List WriterCall) : List Int :=
  t.filterMap insertEventsMIArg

/-- Modelled from the spec: `WriterService.write` is not under `src/`;
its call protocol follows spec section 4.5 (open transaction, OCC
validation, read the current migration index, persist, notify), and the
migration-index argument of `insert_events` follows the `src/` unit test
`test_writer_distribution`, which asserts that `insert_events` receives
the exact value returned by `get_current_migration_index` and that the
latter is called once. -/
def writerWrite (wr : WriteRequest) (currentMI : Int) : List WriterCall :=
  [.getContext, .assertLockedFields wr, .getCurrentMigrationIndex,
   .insertEvents wr.events currentMI wr.information wr.user_id,
   .handleEvents]

/-- Number of `DbUpdateEvent`s in a list of db events. -/
def countDbUpdate (l : List BaseDbEvent) : Nat :=
  l.countP (fun e => match e with | .dbUpdate _ _ => true | _ => false)

/-- Number of `DbDeleteFieldsEvent`s in a list of db events. -/
def countDbDeleteFields (l : List BaseDbEvent) : Nat :=
  l.countP (fun e => match e with | .dbDeleteFields _ _ => true | _ => false)

/-- Concrete model used in witnesses: existing and not deleted. -/
def demoModel1 : Model := [("f", JSON.str "x"), (META_DELETED, JSON.bool false)]

/-- Concrete model used in witnesses: existing and soft-deleted. -/
def demoModel2 : Model := [("g", JSON.num 2), (META_DELETED, JSON.bool true)]

/-- Concrete well-formed models mapping used in witnesses. -/
def demoModels : Models := [("a/1", demoModel1), ("b/2", demoModel2)]

/-- A mapping whose single model lacks the reserved deletion-marker
field. -/
def markerlessModels : Models := [("a/1", [("x", JSON.num 1)])]

/-- An update request on the marker-less model. -/
def c1UpdateEvent : BaseRequestEvent := .update "a/1" [] [] []

/-- The write request built in `test_writer_distribution`. -/
def demoWriteRequest : WriteRequest :=
  { events := [.create "a/1" [("a", JSON.num 1)], .delete "b/2"]
    information := ["content"]
    user_id := 1
    locked_fields := [("c/1", 3), ("c/2/f", 4), ("c/f", 5)] }

/-- A sudden code-less operational disconnection, as classified by the
retry wrapper. -/
def demoRetryableErr : DatabaseError :=
  { msg := "connection broken"
    base_exception :=
      { typeName := "OperationalError", isOperational := true,
        pgcode := none, pgerror := "server closed the connection" } }

/-- A SQL-level error (carries a `pgcode`), never retried. -/
def demoSqlErr : DatabaseError :=
  { msg := "syntax error"
    base_exception :=
      { typeName := "ProgrammingError", isOperational := false,
        pgcode := some "42601", pgerror := "syntax error" } }

/-- Wrapped-function behaviour used in witnesses: one transient failure,
then success. -/
def demoOutcomes : Nat → Except DatabaseError Nat :=
  fun i => if i = 0 then .error demoRetryableErr else .ok 42

/-- Concrete open connection used in witnesses. -/
def connA : PoolConn := { connId := 1, closed := false, autocommit := true }

/-- Concrete open connection used in witnesses. -/
def connB : PoolConn := { connId := 2, closed := false, autocommit := true }

/-- `connA` after being closed. -/
def connAClosed : PoolConn := { connId := 1, closed := true, autocommit := false }

theorem wellFormed_lookup {models : Models} {f : Fqid} {m : Model}
    (hwf : wellFormedModels models = true) (hm : assocLookup models f = some m) :
    (assocLookup m META_DELETED).isSome = true := by
  induction models with
  | nil => simp [assocLookup] at hm
  | cons head tail ih =>
    simp only [wellFormedModels, List.all_cons, Bool.and_eq_true] at hwf
    simp only [assocLookup] at hm
    split at hm
    · cases hm; exact hwf.1
    · exact ih (by simpa [wellFormedModels] using hwf.2) hm

theorem translate_domain_error_characterization (models : Models)
    (hwf : wellFormedModels models = true) :
    (∀ f fields, (assocLookup models f).isSome = true →
        translate (.create f fields) models = .error (.modelExists f))
  ∧ (∀ f fields, (assocLookup models f).isSome = false →
        translate (.create f fields) models = .ok [.dbCreate f fields])
  ∧ (∀ f fields addL removeL, absentOrDeleted models f = true →
        translate (.update f fields addL removeL) models
          = .error (.modelDoesNotExist f))
  ∧ (∀ f fields addL removeL, absentOrDeleted models f = false →
        exceptOk (translate (.update f fields addL removeL) models) = true)
  ∧ (∀ f, absentOrDeleted models f = true →
        translate (.delete f) models = .error (.modelDoesNotExist f))
  ∧ (∀ f, absentOrDeleted models f = false →
        exceptOk (translate (.delete f) models) = true)
  ∧ (∀ f, absentOrNotDeleted models f = true →
        translate (.restore f) models = .error (.modelNotDeleted f))
  ∧ (∀ f, absentOrNotDeleted models f = false →
        exceptOk (translate (.restore f) models) = true) := by
  refine ⟨?_, ?_, ?_, ?_, ?_, ?_, ?_, ?_⟩
  · intro f fields h
    cases hm : assocLookup models f with
    | none => rw [hm] at h; simp at h
    | some m =>
      simp [translate, assert_model_does_not_exist, hm, Bind.bind, Except.bind, Pure.pure, Except.pure]
  · intro f fields h
    cases hm : assocLookup models f with
    | none =>
      simp [translate, assert_model_does_not_exist, hm, Bind.bind, Except.bind, Pure.pure, Except.pure]
    | some m => rw [hm] at h; simp at h
  · intro f fields addL removeL h
    cases hm : assocLookup models f with
    | none =>
      simp [translate, assert_model_exists, hm, Bind.bind, Except.bind, Pure.pure, Except.pure]
    | some m =>
      cases hv : assocLookup m META_DELETED with
      | none => simp only [absentOrDeleted, hm, hv] at h; simp at h
      | some v =>
        simp only [absentOrDeleted, hm, hv] at h
        simp [translate, assert_model_exists, hm, hv, h, Bind.bind, Except.bind, Pure.pure, Except.pure]
  · intro f fields addL removeL h
    cases hm : assocLookup models f with
    | none => simp only [absentOrDeleted, hm] at h; simp at h
    | some m =>
      have hmd := wellFormed_lookup hwf hm
      cases hv : assocLookup m META_DELETED with
      | none => rw [hv] at hmd; simp at hmd
      | some v =>
        simp only [absentOrDeleted, hm, hv] at h
        simp only [translate, assert_model_exists, hm, hv, h,
          Bool.false_eq_true, if_false, Bind.bind, Except.bind, Pure.pure, Except.pure]
        unfold create_update_events
        split
        · simp [exceptOk]
        · simp [hm, exceptOk]
  · intro f h
    cases hm : assocLookup models f with
    | none =>
      simp [translate, assert_model_exists, hm, Bind.bind, Except.bind, Pure.pure, Except.pure]
    | some m =>
      cases hv : assocLookup m META_DELETED with
      | none => simp only [absentOrDeleted, hm, hv] at h; simp at h
      | some v =>
        simp only [absentOrDeleted, hm, hv] at h
        simp [translate, assert_model_exists, hm, hv, h, Bind.bind, Except.bind, Pure.pure, Except.pure]
  · intro f h
    cases hm : assocLookup models f with
    | none => simp only [absentOrDeleted, hm] at h; simp at h
    | some m =>
      have hmd := wellFormed_lookup hwf hm
      cases hv : assocLookup m META_DELETED with
      | none => rw [hv] at hmd; simp at hmd
      | some v =>
        simp only [absentOrDeleted, hm, hv] at h
        simp [translate, assert_model_exists, hm, hv, h, Bind.bind, Except.bind, Pure.pure, Except.pure,
          exceptOk]
  · intro f h
    cases hm : assocLookup models f with
    | none =>
      simp [translate, assert_model_is_deleted, hm, Bind.bind, Except.bind, Pure.pure, Except.pure]
    | some m =>
      cases hv : assocLookup m META_DELETED with
      | none => simp only [absentOrNotDeleted, hm, hv] at h; simp at h
      | some v =>
        simp only [absentOrNotDeleted, hm, hv] at h
        simp [translate, assert_model_is_deleted, hm, hv, h, Bind.bind,
          Except.bind, Pure.pure, Except.pure]
  · intro f h
    cases hm : assocLookup models f with
    | none => simp only [absentOrNotDeleted, hm] at h; simp at h
    | some m =>
      have hmd := wellFormed_lookup hwf hm
      cases hv : assocLookup m META_DELETED with
      | none => rw [hv] at hmd; simp at hmd
      | some v =>
        simp only [absentOrNotDeleted, hm, hv] at h
        simp [translate, assert_model_is_deleted, hm, hv, h, Bind.bind,
          Except.bind, Pure.pure, Except.pure, exceptOk]

theorem update_translation_events (models : Models) (f : Fqid)
    (fields : List (String × JSON)) (addL removeL : List (String × List JSON))
    (m : Model) (v : JSON)
    (hm : assocLookup models f = some m)
    (hv : assocLookup m META_DELETED = some v)
    (hnd : v.isPyTrue = false) :
    translate (.update f fields addL removeL) models = .ok (
      (if (fields.filter (fun fv => !fv.2.isNull)).isEmpty then []
       else [BaseDbEvent.dbUpdate f (fields.filter (fun fv => !fv.2.isNull))])
      ++ (if ((fields.filter (fun fv => fv.2.isNull)).map Prod.fst).isEmpty then []
          else [BaseDbEvent.dbDeleteFields f
                  ((fields.filter (fun fv => fv.2.isNull)).map Prod.fst)])
      ++ (if addL.isEmpty && removeL.isEmpty then []
          else [BaseDbEvent.dbListUpdate f addL removeL m]))
  ∧ (∀ l, translate (.update f fields addL removeL) models = .ok l →
        l.length ≤ 3)
  ∧ (fields ≠ [] → fields.all (fun fv => fv.2.isNull) = true →
      ∀ l, translate (.update f fields addL removeL) models = .ok l →
        countDbDeleteFields l = 1 ∧ countDbUpdate l = 0
        ∧ (addL = [] → removeL = [] →
            l = [BaseDbEvent.dbDeleteFields f (fields.map Prod.fst)])) := by
  have hE : translate (.update f fields addL removeL) models = .ok (
      (if (fields.filter (fun fv => !fv.2.isNull)).isEmpty then []
       else [BaseDbEvent.dbUpdate f (fields.filter (fun fv => !fv.2.isNull))])
      ++ (if ((fields.filter (fun fv => fv.2.isNull)).map Prod.fst).isEmpty then []
          else [BaseDbEvent.dbDeleteFields f
                  ((fields.filter (fun fv => fv.2.isNull)).map Prod.fst)])
      ++ (if addL.isEmpty && removeL.isEmpty then []
          else [BaseDbEvent.dbListUpdate f addL removeL m])) := by
    simp only [translate, assert_model_exists, hm, hv, hnd, Bool.false_eq_true,
      if_false, Bind.bind, Except.bind]
    unfold create_update_events
    split
    · next hc => simp [hc]
    · next hc => simp [hm, hc]
  refine ⟨hE, ?_, ?_⟩
  · intro l hl
    rw [hE] at hl
    cases hl
    simp only [List.length_append]
    split <;> split <;> split <;> simp
  · intro hne hall l hl
    rw [hE] at hl
    have hfilter1 : fields.filter (fun fv => !fv.2.isNull) = [] := by
      rw [List.filter_eq_nil_iff]
      intro a ha
      simp only [List.all_eq_true] at hall
      simp [hall a ha]
    have hfilter2 : fields.filter (fun fv => fv.2.isNull) = fields := by
      rw [List.filter_eq_self]
      intro a ha
      simp only [List.all_eq_true] at hall
      exact hall a ha
    have hmapne : ((fields.map Prod.fst)).isEmpty = false := by
      cases fields with
      | nil => exact absurd rfl hne
      | cons a t => simp
    rw [hfilter1, hfilter2] at hl
    simp only [List.isEmpty_nil, if_true, List.nil_append, hmapne,
      Bool.false_eq_true, if_false] at hl
    by_cases hc : (addL.isEmpty && removeL.isEmpty) = true
    · rw [if_pos hc] at hl
      rw [List.append_nil] at hl
      cases hl
      exact ⟨rfl, rfl, fun _ _ => rfl⟩
    · rw [if_neg hc] at hl
      cases hl
      refine ⟨rfl, rfl, ?_⟩
      intro ha hr
      rw [ha, hr] at hc
      simp at hc

theorem single_event_translations (models : Models) :
    (∀ (f : Fqid) (fields : List (String × JSON)), assocLookup models f = none →
        translate (.create f fields) models = .ok [.dbCreate f fields])
  ∧ (∀ (f : Fqid) (m : Model) (v : JSON), assocLookup models f = some m →
        assocLookup m META_DELETED = some v → v.isPyTrue = false →
        translate (.delete f) models = .ok [.dbDelete f (m.map Prod.fst)])
  ∧ (∀ (f : Fqid) (m : Model) (v : JSON), assocLookup models f = some m →
        assocLookup m META_DELETED = some v → v.isPyFalse = false →
        translate (.restore f) models = .ok [.dbRestore f (m.map Prod.fst)]) := by
  refine ⟨?_, ?_, ?_⟩
  · intro f fields hm
    simp [translate, assert_model_does_not_exist, hm, Bind.bind, Except.bind,
      Pure.pure, Except.pure]
  · intro f m v hm hv hnd
    simp [translate, assert_model_exists, hm, hv, hnd, Bind.bind, Except.bind,
      Pure.pure, Except.pure]
  · intro f m v hm hv hnd
    simp [translate, assert_model_is_deleted, hm, hv, hnd, Bind.bind,
      Except.bind, Pure.pure, Except.pure]

theorem translate_keyerror_on_missing_marker (models : Models) (f : Fqid)
    (m : Model) (hm : assocLookup models f = some m)
    (hmd : assocLookup m META_DELETED = none) :
    (∀ fields addL removeL,
        translate (.update f fields addL removeL) models
          = .error (.keyError META_DELETED))
  ∧ translate (.delete f) models = .error (.keyError META_DELETED)
  ∧ translate (.restore f) models = .error (.keyError META_DELETED) := by
  refine ⟨?_, ?_, ?_⟩
  · intro fields addL removeL
    simp [translate, assert_model_exists, hm, hmd, Bind.bind, Except.bind]
  · simp [translate, assert_model_exists, hm, hmd, Bind.bind, Except.bind]
  · simp [translate, assert_model_is_deleted, hm, hmd, Bind.bind, Except.bind]

theorem translate_markerless_counterexample :
    translate c1UpdateEvent markerlessModels = .error (.keyError META_DELETED)
    ∧ exceptOk (translate c1UpdateEvent markerlessModels) = false :=
  ⟨rfl, rfl⟩

theorem translate_domain_error_characterization_witness :
    wellFormedModels demoModels = true
    ∧ translate (.create "a/1" []) demoModels = .error (.modelExists "a/1") :=
  ⟨rfl, (translate_domain_error_characterization demoModels rfl).1 "a/1" [] rfl⟩

theorem update_translation_events_witness :
    assocLookup demoModels "a/1" = some demoModel1
    ∧ translate (.update "a/1" [("p", JSON.null)] [] []) demoModels
        = .ok [.dbDeleteFields "a/1" ["p"]] :=
  ⟨rfl, by
    have h := (update_translation_events demoModels "a/1" [("p", JSON.null)] [] []
      demoModel1 (JSON.bool false) rfl rfl rfl).1
    simpa using h⟩

theorem single_event_translations_witness :
    translate (.delete "a/1") demoModels = .ok [.dbDelete "a/1" ["f", META_DELETED]]
    ∧ translate (.restore "b/2") demoModels
        = .ok [.dbRestore "b/2" ["g", META_DELETED]] :=
  ⟨by
    have h := (single_event_translations demoModels).2.1 "a/1" demoModel1
      (JSON.bool false) rfl rfl rfl
    simpa [demoModel1] using h,
   by
    have h := (single_event_translations demoModels).2.2 "b/2" demoModel2
      (JSON.bool true) rfl rfl rfl
    simpa [demoModel2] using h⟩

theorem translate_keyerror_on_missing_marker_witness :
    assocLookup markerlessModels "a/1" = some [("x", JSON.num 1)]
    ∧ translate (.delete "a/1") markerlessModels
        = .error (.keyError META_DELETED) :=
  ⟨rfl, (translate_keyerror_on_missing_marker markerlessModels "a/1"
      [("x", JSON.num 1)] rfl rfl).2.1⟩

theorem retryInv_stop {α : Type} (rt mr : Nat) (o : Nat → Except DatabaseError α)
    (idx : Nat) (res : Except DatabaseError α) (hres : o idx = res) :
    retryInv rt mr o idx ⟨res, idx + 1, []⟩ := by
  refine ⟨⟨le_refl _, le_max_right _ _⟩, ?_, ?_, ?_⟩
  · show res = o (idx + 1 - 1)
    simpa using hres.symm
  · intro i hi hia
    have hia2 : i + 1 < idx + 1 := hia
    omega
  · show ([] : List Nat) = if rt = 0 then [] else List.replicate (idx + 1 - 1 - idx) rt
    simp

theorem retryInv_step {α : Type} (rt mr : Nat) (o : Nat → Except DatabaseError α)
    (idx : Nat) (e : DatabaseError) (r : RetryResult α)
    (ho : o idx = .error e) (hre : retryableDbError e = true)
    (hlt : idx + 1 < mr) (hr : retryInv rt mr o (idx + 1) r) :
    retryInv rt mr o idx
      ⟨r.result, r.attempts, (if rt = 0 then [] else [rt]) ++ r.sleeps⟩ := by
  obtain ⟨⟨hlo, hhi⟩, hres, hretr, hsleep⟩ := hr
  refine ⟨⟨?_, ?_⟩, ?_, ?_, ?_⟩
  · show idx + 1 ≤ r.attempts
    omega
  · show r.attempts ≤ max mr (idx + 1)
    omega
  · show r.result = o (r.attempts - 1)
    exact hres
  · intro i hi hia
    have hia2 : i + 1 < r.attempts := hia
    rcases Nat.eq_or_lt_of_le hi with rfl | hlt2
    · exact ⟨e, ho, hre⟩
    · exact hretr i hlt2 hia2
  · show (if rt = 0 then [] else [rt]) ++ r.sleeps
        = if rt = 0 then [] else List.replicate (r.attempts - 1 - idx) rt
    rw [hsleep]
    by_cases hrt : rt = 0
    · simp [hrt]
    · simp only [hrt, if_false]
      have hc : r.attempts - 1 - idx = (r.attempts - 1 - (idx + 1)) + 1 := by
        omega
      rw [hc, List.replicate_succ]
      rfl

theorem retryGo_spec {α : Type} (rt mr : Nat) (o : Nat → Except DatabaseError α) :
    ∀ idx, retryInv rt mr o idx (retryGo rt mr o idx) := by
  have main : ∀ n idx, mr - idx ≤ n → retryInv rt mr o idx (retryGo rt mr o idx) := by
    intro n
    induction n with
    | zero =>
      intro idx hn
      rw [retryGo]
      split
      · next v hv => exact retryInv_stop rt mr o idx _ hv
      · next e he =>
        rw [dif_neg (fun hcon => absurd hcon.2 (by omega))]
        exact retryInv_stop rt mr o idx _ he
    | succ n ih =>
      intro idx hn
      rw [retryGo]
      split
      · next v hv => exact retryInv_stop rt mr o idx _ hv
      · next e he =>
        by_cases h : retryableDbError e = true ∧ idx + 1 < mr
        · rw [dif_pos h]
          exact retryInv_step rt mr o idx e _ he h.1 h.2 (ih (idx + 1) (by omega))
        · rw [dif_neg h]
          exact retryInv_stop rt mr o idx _ he
  intro idx
  exact main (mr - idx) idx le_rfl

/-- C5: the retry wrapper retries only on a `DatabaseError` wrapping a
code-less `OperationalError` (every attempt before the last failed that
way); any other database error — in particular every SQL-level error — is
re-raised immediately without a further attempt; at most `MAX_RETRIES`
attempts are made; the surfaced result is whatever the last attempt did,
so exhausted retries surface the last error; and the configured delay is
slept exactly once between consecutive attempts (no sleep when the
timeout is configured as zero). -/
theorem retry_on_db_failure_spec {α : Type} (rt mr : Nat)
    (o : Nat → Except DatabaseError α) (hmr : 1 ≤ mr) :
    (1 ≤ (retryRun rt mr o).attempts ∧ (retryRun rt mr o).attempts ≤ mr)
  ∧ (retryRun rt mr o).result = o ((retryRun rt mr o).attempts - 1)
  ∧ (∀ i, i + 1 < (retryRun rt mr o).attempts →
      ∃ e, o i = .error e ∧ retryableDbError e = true)
  ∧ (∀ e, o 0 = .error e → retryableDbError e = false →
      (retryRun rt mr o).result = .error e ∧ (retryRun rt mr o).attempts = 1)
  ∧ (retryRun rt mr o).sleeps
      = (if rt = 0 then []
         else List.replicate ((retryRun rt mr o).attempts - 1) rt) := by
  obtain ⟨⟨hlo, hhi⟩, hres, hretr, hsleep⟩ := retryGo_spec rt mr o 0
  refine ⟨⟨hlo, ?_⟩, hres, ?_, ?_, by simpa using hsleep⟩
  · show (retryGo rt mr o 0).attempts ≤ mr
    omega
  · intro i hia
    exact hretr i (Nat.zero_le i) hia
  · intro e ho hnr
    unfold retryRun
    rw [retryGo]
    split
    · next v hv => rw [ho] at hv; cases hv
    · next e2 he2 =>
      rw [ho] at he2
      cases he2
      rw [dif_neg (fun hcon => by rw [hnr] at hcon; exact absurd hcon.1 (by simp))]
      exact ⟨rfl, rfl⟩

theorem retry_on_db_failure_spec_witness :
    1 ≤ 3 ∧ (retryRun 10 3 demoOutcomes).result
        = demoOutcomes ((retryRun 10 3 demoOutcomes).attempts - 1) :=
  ⟨by decide, (retry_on_db_failure_spec 10 3 demoOutcomes (by decide)).2.1⟩

/-- C6: if the calling thread already holds an open (non-invalidated)
connection, `get_connection` raises `BadCodingError`; if the held
connection was already closed by a prior error, it is silently discarded
(dropped from the handler, never handed out) and a fresh connection from
the pool free list is acquired and recorded as the thread's current
connection. -/
theorem get_connection_thread_affinity (s : HandlerState) (old : PoolConn)
    (hcur : s.current = some old) :
    (old.closed = false → get_connection s = .badCoding)
  ∧ (old.closed = true → ∀ c rest, s.available = c :: rest →
      get_connection s
        = .ok { c with autocommit := false }
            { current := some { c with autocommit := false }, available := rest }
      ∧ ((∀ a ∈ s.available, a.connId ≠ old.connId) →
          PoolConn.connId { c with autocommit := false } ≠ old.connId
          ∧ connAbsent old.connId
              { current := some { c with autocommit := false },
                available := rest } = true)) := by
  constructor
  · intro hcl
    simp [get_connection, hcur, hcl]
  · intro hcl c rest hav
    constructor
    · simp [get_connection, hcur, hcl, hav]
    · intro hfresh
      have hcm : c ∈ s.available := by rw [hav]; exact List.mem_cons_self c rest
      constructor
      · exact hfresh c hcm
      · simp only [connAbsent, List.all_eq_true, Bool.and_eq_true]
        constructor
        · simpa using hfresh c hcm
        · intro a ha
          have : a ∈ s.available := by
            rw [hav]; exact List.mem_cons_of_mem c ha
          simpa using hfresh a this

/-- C7: returning the thread's current connection with `has_error` closes
and drops it instead of recycling it (the free list is unchanged) and
clears the thread's current-connection slot; returning any other
connection is a `BadCodingError`; and a connection id that is gone from
the handler state is never handed out by a later `get_connection` and
stays gone across `get_connection` and `put_connection` steps. -/
theorem put_connection_error_discard :
    (∀ (s : HandlerState) (conn : PoolConn), s.current = some conn →
      put_connection s conn true
        = .ok { current := none, available := s.available }
      ∧ ((∀ a ∈ s.available, a.connId ≠ conn.connId) →
          connAbsent conn.connId { current := none, available := s.available }
            = true))
  ∧ (∀ (s : HandlerState) (conn : PoolConn) (berr : Bool),
      s.current ≠ some conn → put_connection s conn berr = .error ())
  ∧ (∀ (s : HandlerState) (cid : Nat) (c : PoolConn) (s2 : HandlerState),
      connAbsent cid s = true → get_connection s = .ok c s2 →
      c.connId ≠ cid ∧ connAbsent cid s2 = true)
  ∧ (∀ (s : HandlerState) (cid : Nat) (conn : PoolConn) (berr : Bool)
      (s2 : HandlerState), connAbsent cid s = true →
      put_connection s conn berr = .ok s2 → connAbsent cid s2 = true) := by
  refine ⟨?_, ?_, ?_, ?_⟩
  · intro s conn hcur
    constructor
    · simp [put_connection, hcur]
    · intro hfresh
      simp only [connAbsent, List.all_eq_true, Bool.and_eq_true]
      exact ⟨trivial, fun a ha => by simpa using hfresh a ha⟩
  · intro s conn berr hcur
    unfold put_connection
    rw [if_neg (fun hc => hcur hc)]
  · intro s cid c s2 habs hok
    obtain ⟨cur, av⟩ := s
    simp only [connAbsent, List.all_eq_true, Bool.and_eq_true,
      decide_eq_true_eq] at habs
    obtain ⟨hcur, hav⟩ := habs
    cases cur with
    | some old =>
      by_cases hcl : old.closed = true
      · cases av with
        | nil => simp [get_connection, hcl] at hok
        | cons c0 rest =>
          simp only [get_connection, hcl, if_true] at hok
          cases hok
          have hc0 := hav c0 (List.mem_cons_self c0 rest)
          refine ⟨hc0, ?_⟩
          simp only [connAbsent, List.all_eq_true, Bool.and_eq_true,
            decide_eq_true_eq]
          exact ⟨hc0, fun a ha => hav a (List.mem_cons_of_mem c0 ha)⟩
      · simp only [get_connection, hcl, if_false] at hok
        cases hok
    | none =>
      cases av with
      | nil => simp [get_connection] at hok
      | cons c0 rest =>
        simp only [get_connection] at hok
        cases hok
        have hc0 := hav c0 (List.mem_cons_self c0 rest)
        refine ⟨hc0, ?_⟩
        simp only [connAbsent, List.all_eq_true, Bool.and_eq_true,
          decide_eq_true_eq]
        exact ⟨hc0, fun a ha => hav a (List.mem_cons_of_mem c0 ha)⟩
  · intro s cid conn berr s2 habs hok
    simp only [connAbsent, List.all_eq_true, Bool.and_eq_true,
      decide_eq_true_eq] at habs
    obtain ⟨hcur, hav⟩ := habs
    unfold put_connection at hok
    by_cases hc : s.current = some conn
    · rw [if_pos hc] at hok
      cases hok
      simp only [connAbsent, List.all_eq_true, Bool.and_eq_true,
        decide_eq_true_eq]
      refine ⟨trivial, ?_⟩
      intro a ha
      cases berr with
      | true => exact hav a (by simpa using ha)
      | false =>
        simp only [Bool.false_eq_true, if_false, List.mem_append] at ha
        rcases ha with ha | ha
        · exact hav a ha
        · simp only [List.mem_singleton] at ha
          subst ha
          rw [hc] at hcur
          simpa using hcur
    · rw [if_neg hc] at hok
      cases hok

/-- C8: on every exit path of the scoped transaction context — normal
return, exception, or already-closed connection — the connection is
returned to the pool exactly once; under a psycopg2 error the connection
is returned marked as errored and the error, translated to a domain
`DatabaseError` wrapping it, is re-raised strictly after the release;
with no psycopg2 error there is no raise and the connection is returned
unmarked. -/
theorem connection_context_exit_spec (connClosed : Bool) (exc : Option PyExc) :
    (contextExit connClosed exc).countP isPutConn = 1
  ∧ (∀ e, exc = some (.pgError e) →
      contextExit connClosed exc
        = (if connClosed then [] else [ExitAction.connExit false])
          ++ [ExitAction.putConn true, ExitAction.raiseDbError (raise_error e)]
      ∧ (raise_error e).base_exception = e)
  ∧ (isPgExc exc = false →
      contextExit connClosed exc
        = (if connClosed then [] else [ExitAction.connExit exc.isNone])
          ++ [ExitAction.putConn false]) := by
  refine ⟨?_, ?_, ?_⟩
  · cases exc with
    | none => cases connClosed <;> simp [contextExit, isPgExc, isPutConn]
    | some e =>
      cases e with
      | pgError pe => cases connClosed <;> simp [contextExit, isPgExc, isPutConn]
      | otherError => cases connClosed <;> simp [contextExit, isPgExc, isPutConn]
  · intro e he
    subst he
    cases connClosed <;> exact ⟨by simp [contextExit, isPgExc], rfl⟩
  · intro hnp
    cases exc with
    | none => cases connClosed <;> simp [contextExit, isPgExc]
    | some e =>
      cases e with
      | pgError pe => simp [isPgExc] at hnp
      | otherError => cases connClosed <;> simp [contextExit, isPgExc]

theorem get_connection_thread_affinity_witness :
    HandlerState.current { current := some connA, available := [connB] }
      = some connA
    ∧ connA.closed = false
    ∧ get_connection { current := some connA, available := [connB] }
        = .badCoding :=
  ⟨rfl, rfl,
    (get_connection_thread_affinity
      { current := some connA, available := [connB] } connA rfl).1 rfl⟩

theorem put_connection_error_discard_witness :
    HandlerState.current { current := some connA, available := [connB] }
      = some connA
    ∧ put_connection { current := some connA, available := [connB] } connA true
        = .ok { current := none, available := [connB] } :=
  ⟨rfl,
    (put_connection_error_discard.1
      { current := some connA, available := [connB] } connA rfl).1⟩

theorem connection_context_exit_spec_witness :
    contextExit false (some (.pgError demoSqlErr.base_exception))
      = [ExitAction.connExit false, ExitAction.putConn true,
         ExitAction.raiseDbError (raise_error demoSqlErr.base_exception)] := by
  have h := ((connection_context_exit_spec false
      (some (.pgError demoSqlErr.base_exception))).2.1
      demoSqlErr.base_exception rfl).1
  simpa using h

/-- C4, counterexample: with the current migration index read as 5, the
writer passes 5 itself — not 5 + 1 — as the migration-index argument of
`insert_events`. -/
theorem writer_migration_index_counterexample :
    writerInsertMIArgs (writerWrite demoWriteRequest 5) = [5]
    ∧ ((5 : Int) + 1 ≠ 5) :=
  ⟨rfl, by decide⟩

/-- C4 (amended): for every write, the writer reads the current migration
index from the read database exactly once and passes the read value
unchanged as the migration-index argument of `insert_events`. -/
theorem writer_write_migration_index (wr : WriteRequest) (mi : Int) :
    (writerWrite wr mi).countP isGcmiCall = 1
    ∧ writerInsertMIArgs (writerWrite wr mi) = [mi] :=
  ⟨rfl, rfl⟩

end Datastore
